import Mathlib

/-!
# Verification of the Debug Session Orchestrator (`src/main/index.ts`)

Shallow embedding of the Electron main-process module of debugtron.

The file-system, the plist parser, the icon reader and the network are
modelled as explicit environments (`FsEnv`, a `fetchJson` function): the
source performs these effects through `fs`, `plist`, `node-fetch`; here an
environment value records what each call would return, and every function of
the source becomes a pure function of that environment.  Async functions that
may reject are embedded as `Except String` values; JavaScript `undefined`
flowing out of an empty-array destructuring is embedded as `Option`.
-/

/-- One inspectable target exposed by a debugging endpoint
(`PageInfo` of `src/types.ts`, used opaquely by `index.ts`). -/
structure PageInfo where
  id : String
  deriving DecidableEq, Repr

/-- `AppInfo` of `src/types.ts` as constructed by `getAppInfo`.
`exePath` is `Option` because on win32 the source assigns `exeFiles[0]`,
which is `undefined` when no file matches. -/
structure AppInfo where
  id : String
  name : String
  icon : String
  appPath : String
  exePath : Option String
  deriving DecidableEq, Repr

/-- The fields of `Contents/Info.plist` that `getAppInfo` reads on darwin. -/
structure PlistInfo where
  CFBundleIdentifier : String
  CFBundleDisplayName : String
  CFBundleExecutable : String
  CFBundleIconFile : String
  deriving DecidableEq, Repr

/-- `process.platform` as the source's `switch` statements see it:
the two handled values, and every other platform string. -/
inductive Platform where
  | win32
  | darwin
  | other (s : String)
  deriving DecidableEq, Repr

def Platform.name : Platform → String
  | .win32 => "win32"
  | .darwin => "darwin"
  | .other s => s

/-- The file-system / parser environment the module runs against.
`readdir` and `readFile` return `Except` (the promise may reject);
`pathExists` models `fs.existsSync`; `plistParse` models `plist.parse`;
`readIcns` models `readIcnsAsImageUri` of `./utils`. -/
structure FsEnv where
  readdir : String → Except String (List String)
  pathExists : String → Bool
  readFile : String → Except String String
  plistParse : String → PlistInfo
  readIcns : String → String

/-- `path.join(a, b)` for the relative segments the source joins. -/
def pathJoin (a b : String) : String := a ++ "/" ++ b

/-- Split a character list on a separator (the groups between separators,
in order; structurally recursive so that it computes definitionally). -/
def splitOnChar (sep : Char) : List Char → List (List Char)
  | [] => [[]]
  | c :: cs =>
    let r := splitOnChar sep cs
    if c = sep then [] :: r
    else
      match r with
      | [] => [[c]]
      | g :: gs => (c :: g) :: gs

/-- `s.startsWith(pre)`. -/
def strStartsWith (s pre : String) : Bool := pre.data.isPrefixOf s.data

/-- `s.endsWith(post)`. -/
def strEndsWith (s post : String) : Bool := post.data.reverse.isPrefixOf s.data.reverse

/-- `path.basename`: the last `/`-separated component. -/
def basenameStr (s : String) : String :=
  String.mk ((splitOnChar '/' s.data).getLastD [])

/-- `path.extname`: the suffix of the basename from its last dot;
empty when there is no dot or the only dot is the leading one. -/
def extnameStr (s : String) : String :=
  match splitOnChar '.' ((splitOnChar '/' s.data).getLastD []) with
  | [] => ""
  | [_] => ""
  | [[], _] => ""
  | ps => String.mk ('.' :: ps.getLastD [])

/-! ## Port Pool

Modelled from the spec: the `PortPool` class lives in `src/main/utils.ts`,
which is not part of the provided sources; only its use
(`portPool.getPort()`, twice per launch) appears in `index.ts`.  Per §4.2 of
the spec the pool holds a set of held ports, `acquire` linearly scans from a
base port skipping held ports and marks the returned port held in the same
synchronous step, failing with `PoolExhausted` (`none` here) when the range
is exhausted, and `release` is an idempotent removal. -/

/-- Base of the port range (implementation-defined per the spec). -/
def poolBasePort : Nat := 8315

/-- Size of the port range (implementation-defined per the spec). -/
def poolRangeSize : Nat := 10000

/-- Modelled from the spec: the pool's state is the set of currently held
ports (`src/main/utils.ts` is not in the provided sources). -/
structure PortPool where
  held : List Nat
  deriving DecidableEq, Repr

/-- Modelled from the spec: linear scan from a candidate port, skipping held
ports, with fuel bounding the range. -/
def scanFreePort : Nat → List Nat → Nat → Option Nat
  | 0, _, _ => none
  | fuel + 1, held, cand =>
    if cand ∈ held then scanFreePort fuel held (cand + 1) else some cand

/-- Modelled from the spec: `acquire()` returns a port not currently held and
marks it held atomically; `none` is the `PoolExhausted` failure. -/
def PortPool.getPort (p : PortPool) : Option (Nat × PortPool) :=
  match scanFreePort poolRangeSize p.held poolBasePort with
  | some port => some (port, ⟨port :: p.held⟩)
  | none => none

/-- Modelled from the spec: `release(port)` is an idempotent removal;
releasing an unheld port is a no-op. -/
def PortPool.release (p : PortPool) (port : Nat) : PortPool :=
  ⟨p.held.filter (fun x => x != port)⟩

/-- A run of `n` consecutive `acquire()` calls with no interleaved
`release()`, returning the acquired ports in order. -/
def acquireN : Nat → PortPool → Option (List Nat × PortPool)
  | 0, p => some ([], p)
  | n + 1, p =>
    match p.getPort with
    | none => none
    | some (port, p1) =>
      match acquireN n p1 with
      | none => none
      | some (ports, p2) => some (port :: ports, p2)

/-! ## Application Discovery (`readdirAbsolute`, `getPossibleAppPaths`,
`isElectronApp`, `getAppInfo`, `getExecutable`) -/

/-- `readdirAbsolute`: lists a directory and joins each entry onto it;
any `readdir` rejection is caught and yields `[]`. -/
def readdirAbsolute (fs : FsEnv) (dir : String) : List String :=
  match fs.readdir dir with
  | Except.ok files => files.map (fun f => pathJoin dir f)
  | Except.error _ => []

/-- `getPossibleAppPaths`: the platform-specific candidate roots.  On win32
three roots are listed (via `Promise.all` and `flat`), on darwin one; the
`default` branch returns `[]`. -/
def getPossibleAppPaths (pf : Platform) (homedir : String) (fs : FsEnv) : List String :=
  match pf with
  | .win32 =>
    ([homedir ++ "/AppData/Local", "c:/Program Files", "c:/Program Files (x86)"].map
      (fun dir => readdirAbsolute fs dir)).flatten
  | .darwin => readdirAbsolute fs "/Applications"
  | .other _ => []

/-- `isElectronApp`: on win32, the first `app-`-prefixed entry must contain
`resources/electron.asar` (readdir errors are caught and yield `false`; an
empty filter result leaves `dir` undefined, which is falsy); on darwin the
Electron framework bundle must exist; the `default` branch returns `false`. -/
def isElectronApp (pf : Platform) (fs : FsEnv) (appPath : String) : Bool :=
  match pf with
  | .win32 =>
    match fs.readdir appPath with
    | Except.error _ => false
    | Except.ok dirs =>
      match dirs.filter (fun n => strStartsWith n "app-") with
      | [] => false
      | dir :: _ => fs.pathExists (pathJoin (pathJoin appPath dir) "resources/electron.asar")
  | .darwin => fs.pathExists (pathJoin appPath "Contents/Frameworks/Electron Framework.framework")
  | .other _ => false

/-- The win32 executable filter of `getAppInfo`:
`file.endsWith('.exe') && !file.startsWith('Uninstall')`. -/
def winExeFilter (f : String) : Bool :=
  strEndsWith f ".exe" && !(strStartsWith f "Uninstall")

/-- `getAppInfo`: win32 takes the first matching `.exe` *file name* of the
top-level listing (readdir rejections propagate), with a fresh `v4()` id
(`freshId` parameter); darwin parses `Contents/Info.plist`; the `default`
branch throws `platform not supported`. -/
def getAppInfo (pf : Platform) (fs : FsEnv) (freshId : String) (appPath : String) :
    Except String AppInfo :=
  match pf with
  | .win32 =>
    match fs.readdir appPath with
    | Except.error e => Except.error e
    | Except.ok files =>
      Except.ok { id := freshId, name := basenameStr appPath, icon := "",
                  appPath := appPath, exePath := (files.filter winExeFilter).head? }
  | .darwin =>
    match fs.readFile (pathJoin appPath "Contents/Info.plist") with
    | Except.error e => Except.error e
    | Except.ok infoContent =>
      let info := fs.plistParse infoContent
      let icon := fs.readIcns
        (pathJoin (pathJoin (pathJoin appPath "Contents") "Resources") info.CFBundleIconFile)
      Except.ok { id := info.CFBundleIdentifier, name := info.CFBundleDisplayName,
                  icon := icon, appPath := appPath,
                  exePath := some (pathJoin (pathJoin (pathJoin appPath "Contents") "MacOS")
                    info.CFBundleExecutable) }
  | .other s => Except.error ("platform not supported: " ++ s)

/-- `getExecutable`: win32 joins `appPath` with `basename(appPath) + '.exe'`;
darwin takes the first entry of `Contents/MacOS` (an empty listing leaves
`exe` undefined and `path.join` throws a `TypeError`); the `default` branch
throws `platform not supported`. -/
def getExecutable (pf : Platform) (fs : FsEnv) (appPath : String) : Except String String :=
  match pf with
  | .win32 => Except.ok (pathJoin appPath (basenameStr appPath ++ ".exe"))
  | .darwin =>
    match fs.readdir (pathJoin appPath "Contents/MacOS") with
    | Except.error e => Except.error e
    | Except.ok [] => Except.error "TypeError: the path argument is undefined"
    | Except.ok (exe :: _) => Except.ok (pathJoin (pathJoin appPath "Contents/MacOS") exe)
  | .other s => Except.error ("platform not supported: " ++ s)

/-! ## Process Launcher (`startDebugging`) -/

/-- An event on the child process, as delivered to the handlers that
`startDebugging` registers (`stdout.on('data')`, `stderr.on('data')`,
`on('close')`). -/
inductive ChildEvent where
  | stdout (data : String)
  | stderr (data : String)
  | closed (code : Int)
  deriving DecidableEq, Repr

def ChildEvent.isStderr : ChildEvent → Bool
  | .stderr _ => true
  | _ => false

def ChildEvent.isClosed : ChildEvent → Bool
  | .closed _ => true
  | _ => false

/-- An observable action of `startDebugging`: the renderer events it sends
(`appPrepare`, `log`, `appStarted`, `appClosed`) and the scheduling of the
delayed endpoint query (`setTimeout(..., 500)`). -/
inductive Event where
  | appPrepare (instanceId appId : String)
  | log (instanceId data : String)
  | scheduleFetch (instanceId : String) (nodePort windowPort delayMs : Nat)
  | appStarted (instanceId : String) (pages : List PageInfo)
  | appClosed (instanceId : String)
  deriving DecidableEq, Repr

def Event.isScheduleFetch : Event → Bool
  | .scheduleFetch _ _ _ _ => true
  | _ => false

def Event.isAppStarted : Event → Bool
  | .appStarted _ _ => true
  | _ => false

def Event.isAppClosed : Event → Bool
  | .appClosed _ => true
  | _ => false

/-- The stream handlers of `startDebugging`, run over the child's events in
arrival order.  The `fetched` flag starts `false`; the first stderr chunk
sets it and schedules the delayed endpoint query (500 ms), then every chunk
of either stream is forwarded as a `log` event; process exit sends
`appClosed` (and touches neither the flag nor the port pool). -/
def runChildEvents (instanceId : String) (nodePort windowPort : Nat) :
    Bool → List ChildEvent → List Event
  | _, [] => []
  | fetched, ChildEvent.stdout d :: rest =>
    Event.log instanceId d :: runChildEvents instanceId nodePort windowPort fetched rest
  | fetched, ChildEvent.stderr d :: rest =>
    if fetched then
      Event.log instanceId d :: runChildEvents instanceId nodePort windowPort true rest
    else
      Event.scheduleFetch instanceId nodePort windowPort 500 ::
        Event.log instanceId d :: runChildEvents instanceId nodePort windowPort true rest
  | fetched, ChildEvent.closed _ :: rest =>
    Event.appClosed instanceId :: runChildEvents instanceId nodePort windowPort fetched rest

/-- The executable resolution of `startDebugging`:
`path.extname(appPath) === '.exe' ? appPath : await getExecutable(appPath)`. -/
def resolveExecutable (pf : Platform) (fs : FsEnv) (appPath : String) : Except String String :=
  if extnameStr appPath = ".exe" then Except.ok appPath else getExecutable pf fs appPath

/-- The outcome of one `startDebugging` call: the two acquired ports, the
pool state after the whole run, the spawn target (executable and argument
list, or the rejection that aborted the call), and the events produced. -/
structure DebugRun where
  nodePort : Nat
  windowPort : Nat
  pool : PortPool
  spawned : Except String (String × List String)
  events : List Event
  deriving Repr

/-- `startDebugging`: acquires `nodePort` then `windowPort` from the pool,
resolves the executable (a rejection there aborts the call before
`appPrepare` is sent, with the ports left held), spawns with
`--inspect=<nodePort>` and `--remote-debugging-port=<windowPort>`, sends
`appPrepare`, and runs the stream handlers over the child's events.
No path of the function releases a port. -/
def startDebugging (pool : PortPool) (pf : Platform) (fs : FsEnv) (a : AppInfo)
    (instanceId : String) (trace : List ChildEvent) : Option DebugRun :=
  match pool.getPort with
  | none => none
  | some (nodePort, pool1) =>
    match pool1.getPort with
    | none => none
    | some (windowPort, pool2) =>
      match resolveExecutable pf fs a.appPath with
      | Except.error e =>
        some { nodePort := nodePort, windowPort := windowPort, pool := pool2,
               spawned := Except.error e, events := [] }
      | Except.ok exe =>
        some { nodePort := nodePort, windowPort := windowPort, pool := pool2,
               spawned := Except.ok (exe,
                 ["--inspect=" ++ toString nodePort,
                  "--remote-debugging-port=" ++ toString windowPort]),
               events := Event.appPrepare instanceId a.id ::
                 runChildEvents instanceId nodePort windowPort false trace }

/-! ## The delayed endpoint query (the `setTimeout` callback) -/

/-- `Promise.all` over a list of already-settled promises: the list of all
values, or the first rejection. -/
def promiseAll {ε α : Type} : List (Except ε α) → Except ε (List α)
  | [] => Except.ok []
  | x :: xs =>
    match x with
    | Except.error e => Except.error e
    | Except.ok v =>
      match promiseAll xs with
      | Except.error e => Except.error e
      | Except.ok vs => Except.ok (v :: vs)

/-- The body of the 500 ms `setTimeout` callback: fetch
`http://127.0.0.1:<port>/json` for `[nodePort, windowPort]` via
`Promise.all` (`fetchJson` records each port's response or network failure;
a failure rejects the whole callback — there is no catch), then, if the main
window is still alive, send `appStarted` with `[...json0, ...json1]`;
otherwise throw. -/
def fetchTimeoutCallback (fetchJson : Nat → Except String (List PageInfo))
    (mainWindowAlive : Bool) (instanceId : String) (nodePort windowPort : Nat) :
    Except String (List Event) :=
  match promiseAll ([nodePort, windowPort].map fetchJson) with
  | Except.error e => Except.error e
  | Except.ok jsons =>
    match jsons with
    | [json0, json1] =>
      if mainWindowAlive then
        Except.ok [Event.appStarted instanceId (json0 ++ json1)]
      else
        Except.error "main window already destroyed"
    | _ => Except.error "unreachable: Promise.all of two promises"

/-! ## The `getApps` IPC handler -/

/-- The sequential scan of the `getApps` handler: for each candidate path,
`isElectronApp` gates `getAppInfo`; a `getAppInfo` rejection aborts the whole
handler (there is no catch around the loop).  `freshIds` supplies the `v4()`
value generated for each accepted path. -/
def collectInfos (pf : Platform) (fs : FsEnv) (freshIds : String → String) :
    List String → Except String (List AppInfo)
  | [] => Except.ok []
  | p :: ps =>
    if isElectronApp pf fs p then
      match getAppInfo pf fs (freshIds p) p with
      | Except.error e => Except.error e
      | Except.ok info =>
        match collectInfos pf fs freshIds ps with
        | Except.error e => Except.error e
        | Except.ok rest => Except.ok (info :: rest)
    else
      collectInfos pf fs freshIds ps

/-- A JavaScript object keyed by app id, as a partial map (`Dict<AppInfo>`;
property insertion order is not modelled). -/
def Dict := String → Option AppInfo

/-- One step of the handler's reduce: `a[b.id] = b`. -/
def insertD (d : Dict) (b : AppInfo) : Dict :=
  fun k => if k = b.id then some b else d k

/-- `infos.reduce((a, b) => { a[b.id] = b; return a }, {})`. -/
def buildDict (infos : List AppInfo) : Dict :=
  infos.foldl insertD (fun _ => none)

/-- The `getApps` IPC handler: scan all candidate roots, keep the accepted
candidates, and publish them as a mapping keyed by id. -/
def getApps (pf : Platform) (fs : FsEnv) (homedir : String) (freshIds : String → String) :
    Except String Dict :=
  match collectInfos pf fs freshIds (getPossibleAppPaths pf homedir fs) with
  | Except.error e => Except.error e
  | Except.ok infos => Except.ok (buildDict infos)

/-! ## Port Pool lemmas and claim C2 -/

theorem scanFreePort_not_held : ∀ (fuel : Nat) (held : List Nat) (cand p : Nat),
    scanFreePort fuel held cand = some p → p ∉ held
  | 0, _, _, _, h => by simp [scanFreePort] at h
  | fuel + 1, held, cand, p, h => by
    rw [scanFreePort] at h
    by_cases hm : cand ∈ held
    · rw [if_pos hm] at h
      exact scanFreePort_not_held fuel held (cand + 1) p h
    · rw [if_neg hm] at h
      cases h
      exact hm

theorem PortPool.getPort_spec {p : PortPool} {port : Nat} {p' : PortPool}
    (h : p.getPort = some (port, p')) : port ∉ p.held ∧ p'.held = port :: p.held := by
  unfold PortPool.getPort at h
  cases hs : scanFreePort poolRangeSize p.held poolBasePort with
  | none => rw [hs] at h; cases h
  | some q =>
    rw [hs] at h
    cases h
    exact ⟨scanFreePort_not_held _ _ _ _ hs, rfl⟩

theorem acquireN_spec : ∀ (n : Nat) (p : PortPool) (ports : List Nat) (p' : PortPool),
    acquireN n p = some (ports, p') →
    p'.held = ports.reverse ++ p.held ∧ ports.Nodup ∧ ∀ x ∈ ports, x ∉ p.held
  | 0, p, ports, p', h => by
    rw [acquireN] at h
    cases h
    simp
  | n + 1, p, ports, p', h => by
    rw [acquireN] at h
    cases hg : p.getPort with
    | none => simp only [hg] at h; cases h
    | some pr =>
      obtain ⟨port, p1⟩ := pr
      simp only [hg] at h
      cases ha : acquireN n p1 with
      | none => simp only [ha] at h; cases h
      | some qr =>
        obtain ⟨ports1, p2⟩ := qr
        simp only [ha, Option.some.injEq, Prod.mk.injEq] at h
        obtain ⟨hports, hp'⟩ := h
        subst hports
        subst hp'
        obtain ⟨hfresh, hheld⟩ := PortPool.getPort_spec hg
        obtain ⟨ih1, ih2, ih3⟩ := acquireN_spec n p1 ports1 p2 ha
        refine ⟨?_, ?_, ?_⟩
        · rw [ih1, hheld]
          simp
        · refine List.nodup_cons.mpr ⟨?_, ih2⟩
          intro hmem
          have hx := ih3 port hmem
          rw [hheld] at hx
          exact hx (List.mem_cons_self port p.held)
        · intro x hx
          rcases List.mem_cons.mp hx with rfl | hx1
          · exact hfresh
          · intro hxp
            exact (ih3 x hx1) (by rw [hheld]; exact List.mem_cons_of_mem _ hxp)

/-- **C2.** Successful `acquire()` calls with no interleaved `release()`
return pairwise-distinct ports, each also distinct from every port already
held by a live session when the run began (in particular the `nodePort` and
`windowPort` of one launch differ from each other and from every other
preparing/running session's ports). -/
theorem portPool_acquire_pairwise_distinct (n : Nat) (p : PortPool) (ports : List Nat)
    (p' : PortPool) (h : acquireN n p = some (ports, p')) :
    ports.Nodup ∧ ∀ x ∈ ports, x ∉ p.held :=
  ⟨(acquireN_spec n p ports p' h).2.1, (acquireN_spec n p ports p' h).2.2⟩

theorem portPool_acquire_pairwise_distinct_witness :
    ([8315, 8316] : List Nat).Nodup ∧
    (8315 : Nat) ∉ (PortPool.mk [9000]).held ∧ (8316 : Nat) ∉ (PortPool.mk [9000]).held := by
  have h := portPool_acquire_pairwise_distinct 2 ⟨[9000]⟩ [8315, 8316] ⟨[8316, 8315, 9000]⟩ rfl
  exact ⟨h.1, h.2 8315 (by decide), h.2 8316 (by decide)⟩

/-! ## Claim C5: a failing root yields no candidates and spares the rest -/

/-- **C5.** A root directory whose listing fails contributes the empty
candidate set, raises nothing, and the candidates from the remaining roots
are exactly what their own listings produce (here the failing root is the
per-user `AppData/Local` root of the win32 scan). -/
theorem discovery_failed_root_yields_empty (fs : FsEnv) (home e : String)
    (h : fs.readdir (home ++ "/AppData/Local") = Except.error e) :
    readdirAbsolute fs (home ++ "/AppData/Local") = [] ∧
    getPossibleAppPaths Platform.win32 home fs =
      readdirAbsolute fs "c:/Program Files" ++ readdirAbsolute fs "c:/Program Files (x86)" := by
  have h1 : readdirAbsolute fs (home ++ "/AppData/Local") = [] := by
    unfold readdirAbsolute
    rw [h]
  refine ⟨h1, ?_⟩
  unfold getPossibleAppPaths
  simp [h1]

/-- A file system for the C5 witness: the per-user root is unreadable, the
two global roots list one entry each. -/
def fs5 : FsEnv :=
  { readdir := fun d =>
      if d = "c:/Program Files" then Except.ok ["ElectronApp"]
      else if d = "c:/Program Files (x86)" then Except.ok ["OtherApp"]
      else Except.error "EPERM: operation not permitted",
    pathExists := fun _ => false,
    readFile := fun _ => Except.error "ENOENT",
    plistParse := fun _ => ⟨"", "", "", ""⟩,
    readIcns := fun _ => "" }

theorem discovery_failed_root_yields_empty_witness :
    readdirAbsolute fs5 ("c:/Users/u" ++ "/AppData/Local") = [] ∧
    getPossibleAppPaths Platform.win32 "c:/Users/u" fs5 =
      readdirAbsolute fs5 "c:/Program Files" ++ readdirAbsolute fs5 "c:/Program Files (x86)" :=
  discovery_failed_root_yields_empty fs5 "c:/Users/u" "EPERM: operation not permitted" rfl

/-! ## Stream-handler lemmas and claim C3 -/

theorem runChildEvents_schedule_count_fetched (i : String) (np wp : Nat) :
    ∀ trace : List ChildEvent,
      (runChildEvents i np wp true trace).countP Event.isScheduleFetch = 0
  | [] => by simp [runChildEvents]
  | ChildEvent.stdout d :: rest => by
    simp [runChildEvents, List.countP_cons, Event.isScheduleFetch,
      runChildEvents_schedule_count_fetched i np wp rest]
  | ChildEvent.stderr d :: rest => by
    simp [runChildEvents, List.countP_cons, Event.isScheduleFetch,
      runChildEvents_schedule_count_fetched i np wp rest]
  | ChildEvent.closed c :: rest => by
    simp [runChildEvents, List.countP_cons, Event.isScheduleFetch,
      runChildEvents_schedule_count_fetched i np wp rest]

theorem runChildEvents_schedule_count (i : String) (np wp : Nat) :
    ∀ trace : List ChildEvent,
      (runChildEvents i np wp false trace).countP Event.isScheduleFetch =
        min 1 (trace.countP ChildEvent.isStderr)
  | [] => by simp [runChildEvents]
  | ChildEvent.stdout d :: rest => by
    simp [runChildEvents, List.countP_cons, Event.isScheduleFetch, ChildEvent.isStderr,
      runChildEvents_schedule_count i np wp rest]
  | ChildEvent.stderr d :: rest => by
    simp [runChildEvents, List.countP_cons, Event.isScheduleFetch, ChildEvent.isStderr,
      runChildEvents_schedule_count_fetched i np wp rest]
  | ChildEvent.closed c :: rest => by
    simp [runChildEvents, List.countP_cons, Event.isScheduleFetch, ChildEvent.isStderr,
      runChildEvents_schedule_count i np wp rest]

theorem runChildEvents_first_stderr (i : String) (np wp : Nat) (d : String) :
    ∀ (pre : List ChildEvent), pre.countP ChildEvent.isStderr = 0 → ∀ rest,
      runChildEvents i np wp false (pre ++ ChildEvent.stderr d :: rest) =
        runChildEvents i np wp false pre ++
          Event.scheduleFetch i np wp 500 :: Event.log i d ::
            runChildEvents i np wp true rest
  | [], _, rest => by simp [runChildEvents]
  | ChildEvent.stdout c :: pre, h, rest => by
    have h' : pre.countP ChildEvent.isStderr = 0 := by
      simpa [List.countP_cons, ChildEvent.isStderr] using h
    simp [runChildEvents, runChildEvents_first_stderr i np wp d pre h' rest]
  | ChildEvent.stderr c :: pre, h, rest => by
    simp [List.countP_cons, ChildEvent.isStderr] at h
  | ChildEvent.closed c :: pre, h, rest => by
    have h' : pre.countP ChildEvent.isStderr = 0 := by
      simpa [List.countP_cons, ChildEvent.isStderr] using h
    simp [runChildEvents, runChildEvents_first_stderr i np wp d pre h' rest]

theorem runChildEvents_appStarted_count (i : String) (np wp : Nat) :
    ∀ (b : Bool) (trace : List ChildEvent),
      (runChildEvents i np wp b trace).countP Event.isAppStarted = 0
  | b, [] => by simp [runChildEvents]
  | b, ChildEvent.stdout d :: rest => by
    simp [runChildEvents, List.countP_cons, Event.isAppStarted,
      runChildEvents_appStarted_count i np wp b rest]
  | b, ChildEvent.stderr d :: rest => by
    cases b <;>
      simp [runChildEvents, List.countP_cons, Event.isAppStarted,
        runChildEvents_appStarted_count i np wp true rest]
  | b, ChildEvent.closed c :: rest => by
    simp [runChildEvents, List.countP_cons, Event.isAppStarted,
      runChildEvents_appStarted_count i np wp b rest]

theorem runChildEvents_appClosed_count (i : String) (np wp : Nat) :
    ∀ (b : Bool) (trace : List ChildEvent),
      (runChildEvents i np wp b trace).countP Event.isAppClosed =
        trace.countP ChildEvent.isClosed
  | b, [] => by simp [runChildEvents]
  | b, ChildEvent.stdout d :: rest => by
    simp [runChildEvents, List.countP_cons, Event.isAppClosed, ChildEvent.isClosed,
      runChildEvents_appClosed_count i np wp b rest]
  | b, ChildEvent.stderr d :: rest => by
    cases b <;>
      simp [runChildEvents, List.countP_cons, Event.isAppClosed, ChildEvent.isClosed,
        runChildEvents_appClosed_count i np wp true rest]
  | b, ChildEvent.closed c :: rest => by
    simp [runChildEvents, List.countP_cons, Event.isAppClosed, ChildEvent.isClosed,
      runChildEvents_appClosed_count i np wp b rest]

theorem fetchTimeoutCallback_appStarted_le_one
    (fj : Nat → Except String (List PageInfo)) (alive : Bool) (i : String) (np wp : Nat) :
    ((fetchTimeoutCallback fj alive i np wp).toOption.getD []).countP Event.isAppStarted ≤ 1 := by
  unfold fetchTimeoutCallback
  split
  · simp [Except.toOption]
  · split
    · split
      · simp [Except.toOption, List.countP_cons, Event.isAppStarted]
      · simp [Except.toOption]
    · simp [Except.toOption]

/-- **C3.** For a session whose child process writes its first error-stream
chunk after `pre` (a prefix with no error-stream output), the delayed
endpoint query is scheduled exactly once and exactly at that first chunk;
over any trace the number of scheduled queries is `min 1` the number of
error-stream chunks; the stream handlers themselves never emit `appStarted`;
and one run of the scheduled callback emits at most one `appStarted` — so
`appStarted` is emitted at most once per session. -/
theorem readiness_scheduled_once_on_first_stderr (i : String) (np wp : Nat) (d : String)
    (pre rest : List ChildEvent) (fj : Nat → Except String (List PageInfo)) (alive : Bool)
    (hpre : pre.countP ChildEvent.isStderr = 0) :
    (runChildEvents i np wp false (pre ++ ChildEvent.stderr d :: rest)).countP
        Event.isScheduleFetch = 1 ∧
    runChildEvents i np wp false (pre ++ ChildEvent.stderr d :: rest) =
      runChildEvents i np wp false pre ++
        Event.scheduleFetch i np wp 500 :: Event.log i d ::
          runChildEvents i np wp true rest ∧
    ((fetchTimeoutCallback fj alive i np wp).toOption.getD []).countP Event.isAppStarted ≤ 1 ∧
    (∀ trace : List ChildEvent,
      (runChildEvents i np wp false trace).countP Event.isScheduleFetch =
        min 1 (trace.countP ChildEvent.isStderr)) ∧
    (∀ (b : Bool) (trace : List ChildEvent),
      (runChildEvents i np wp b trace).countP Event.isAppStarted = 0) := by
  refine ⟨?_, runChildEvents_first_stderr i np wp d pre hpre rest,
    fetchTimeoutCallback_appStarted_le_one fj alive i np wp,
    runChildEvents_schedule_count i np wp,
    runChildEvents_appStarted_count i np wp⟩
  rw [runChildEvents_schedule_count i np wp]
  rw [List.countP_append, hpre]
  simp [List.countP_cons, ChildEvent.isStderr]

theorem readiness_scheduled_once_on_first_stderr_witness :
    ([ChildEvent.stdout "booting"] : List ChildEvent).countP ChildEvent.isStderr = 0 ∧
    (runChildEvents "inst" 8315 8316 false
        ([ChildEvent.stdout "booting"] ++
          ChildEvent.stderr "Debugger listening" ::
            [ChildEvent.stderr "more", ChildEvent.closed 0])).countP
      Event.isScheduleFetch = 1 := by
  have h := readiness_scheduled_once_on_first_stderr "inst" 8315 8316 "Debugger listening"
    [ChildEvent.stdout "booting"] [ChildEvent.stderr "more", ChildEvent.closed 0]
    (fun _ => Except.ok []) true (by decide)
  exact ⟨by decide, h.1⟩

/-- **C4.** When both endpoint queries succeed, the published `appStarted`
payload is exactly the `nodePort` endpoint's target list followed by the
`windowPort` endpoint's target list. -/
theorem appStarted_payload_order (fj : Nat → Except String (List PageInfo))
    (i : String) (np wp : Nat) (j0 j1 : List PageInfo)
    (h0 : fj np = Except.ok j0) (h1 : fj wp = Except.ok j1) :
    fetchTimeoutCallback fj true i np wp =
      Except.ok [Event.appStarted i (j0 ++ j1)] := by
  simp [fetchTimeoutCallback, promiseAll, h0, h1]

theorem appStarted_payload_order_witness :
    fetchTimeoutCallback
        (fun p => Except.ok (if p = 8315 then [⟨"node-target"⟩] else [⟨"window-target"⟩]))
        true "inst" 8315 8316 =
      Except.ok [Event.appStarted "inst" ([⟨"node-target"⟩] ++ [⟨"window-target"⟩])] :=
  appStarted_payload_order _ "inst" 8315 8316 [⟨"node-target"⟩] [⟨"window-target"⟩] rfl rfl

/-! ## Claim C8: endpoint failures during the readiness query -/

/-- The C8 claim as stated: a network failure on either endpoint never makes
the query flow itself fail (it is handled locally). -/
def pollFailureHandledClaim : Prop :=
  ∀ (fj : Nat → Except String (List PageInfo)) (alive : Bool) (i : String)
    (np wp : Nat) (e : String),
    fj np = Except.error e →
    (fetchTimeoutCallback fj alive i np wp).isOk = true

/-- **C8 counterexample.** With the node endpoint refusing the connection,
the `setTimeout` callback itself rejects (there is no catch around the
`fetch` calls), so the failure is not handled inside the flow. -/
theorem pollFailure_counterexample : ¬ pollFailureHandledClaim := by
  intro h
  have hc := h (fun _ => Except.error "ECONNREFUSED") true "inst" 8315 8316
    "ECONNREFUSED" rfl
  simp [fetchTimeoutCallback, promiseAll, Except.isOk, Except.toBool] at hc

/-- **C8 (amended).** A network failure on the node endpoint makes the
readiness query reject with that error and publish nothing; no run of the
query callback ever emits `appClosed` (for this or any other session), and
`appClosed` is produced exactly by process-exit events of the session's own
child process — an endpoint failure is never treated as session closure. -/
theorem pollFailure_no_appStarted_never_closes
    (fj : Nat → Except String (List PageInfo)) (alive : Bool) (i : String)
    (np wp : Nat) (e : String) (h : fj np = Except.error e) :
    fetchTimeoutCallback fj alive i np wp = Except.error e ∧
    (∀ (fj' : Nat → Except String (List PageInfo)) (alive' : Bool) (i' : String)
      (np' wp' : Nat),
      ((fetchTimeoutCallback fj' alive' i' np' wp').toOption.getD []).countP
        Event.isAppClosed = 0) ∧
    (∀ (b : Bool) (trace : List ChildEvent),
      (runChildEvents i np wp b trace).countP Event.isAppClosed =
        trace.countP ChildEvent.isClosed) := by
  refine ⟨?_, ?_, runChildEvents_appClosed_count i np wp⟩
  · simp [fetchTimeoutCallback, promiseAll, h]
  · intro fj' alive' i' np' wp'
    unfold fetchTimeoutCallback
    split
    · simp [Except.toOption]
    · split
      · split
        · simp [Except.toOption, List.countP_cons, Event.isAppClosed]
        · simp [Except.toOption]
      · simp [Except.toOption]

theorem pollFailure_no_appStarted_never_closes_witness :
    fetchTimeoutCallback (fun _ => Except.error "ETIMEDOUT") true "inst" 9000 9001 =
      Except.error "ETIMEDOUT" :=
  (pollFailure_no_appStarted_never_closes (fun _ => Except.error "ETIMEDOUT") true "inst"
    9000 9001 "ETIMEDOUT" rfl).1

/-! ## Claim C1: port release on exit paths -/

/-- An environment in which every file-system call fails or is negative. -/
def fsEmpty : FsEnv :=
  { readdir := fun _ => Except.error "ENOENT",
    pathExists := fun _ => false,
    readFile := fun _ => Except.error "ENOENT",
    plistParse := fun _ => ⟨"", "", "", ""⟩,
    readIcns := fun _ => "" }

/-- A launch argument that points directly at a binary (`.exe`), so that
executable resolution uses it as-is. -/
def app0 : AppInfo :=
  { id := "app0", name := "Foo", icon := "", appPath := "c:/apps/Foo.exe", exePath := none }

/-- The C1 claim as stated: after any launch whose child trace contains the
process-exit event, both acquired ports have been released back to the pool
(they are no longer held). -/
def portsReleasedOnExitClaim : Prop :=
  ∀ (pool : PortPool) (pf : Platform) (fs : FsEnv) (a : AppInfo) (i : String)
    (trace : List ChildEvent) (run : DebugRun),
    startDebugging pool pf fs a i trace = some run →
    0 < trace.countP ChildEvent.isClosed →
    run.nodePort ∉ run.pool.held ∧ run.windowPort ∉ run.pool.held

/-- **C1 counterexample.** A session launched from the empty pool acquires
ports 8315 and 8316 and its child exits normally, yet both ports are still
held afterwards: `startDebugging` has no release call on any path. -/
theorem ports_never_released_counterexample : ¬ portsReleasedOnExitClaim := by
  intro h
  have hc := h ⟨[]⟩ Platform.win32 fsEmpty app0 "inst" [ChildEvent.closed 0]
    { nodePort := 8315, windowPort := 8316, pool := ⟨[8316, 8315]⟩,
      spawned := Except.ok ("c:/apps/Foo.exe",
        ["--inspect=8315", "--remote-debugging-port=8316"]),
      events := [Event.appPrepare "inst" "app0", Event.appClosed "inst"] }
    (by rfl) (by decide)
  exact hc.1 (by decide)

/-- **C1 (amended).** No exit path releases a port: after any launch, the
pool holds exactly the two newly acquired ports on top of what it held
before, whatever the child trace (normal exit, non-zero exit, signal
termination, or no exit); on a resolution/spawn failure the launch rejects
with no events sent (no session surfaced) but the ports stay held; when the
spawn succeeds, `appClosed` is emitted once per process-exit event. -/
theorem ports_never_released (pool : PortPool) (pf : Platform) (fs : FsEnv)
    (a : AppInfo) (i : String) (trace : List ChildEvent) (run : DebugRun)
    (h : startDebugging pool pf fs a i trace = some run) :
    run.pool.held = run.windowPort :: run.nodePort :: pool.held ∧
    run.nodePort ∈ run.pool.held ∧
    run.windowPort ∈ run.pool.held ∧
    (∀ e, run.spawned = Except.error e → run.events = []) ∧
    (∀ exe args, run.spawned = Except.ok (exe, args) →
      run.events.countP Event.isAppClosed = trace.countP ChildEvent.isClosed) := by
  unfold startDebugging at h
  cases hg : pool.getPort with
  | none => simp only [hg] at h; cases h
  | some pr =>
    obtain ⟨nodePort, pool1⟩ := pr
    simp only [hg] at h
    cases hg1 : pool1.getPort with
    | none => simp only [hg1] at h; cases h
    | some pr1 =>
      obtain ⟨windowPort, pool2⟩ := pr1
      simp only [hg1] at h
      obtain ⟨-, hheld1⟩ := PortPool.getPort_spec hg
      obtain ⟨-, hheld2⟩ := PortPool.getPort_spec hg1
      cases hr : resolveExecutable pf fs a.appPath with
      | error e =>
        simp only [hr] at h
        cases h
        refine ⟨by rw [hheld2, hheld1], ?_, ?_, ?_, ?_⟩
        · rw [hheld2]
          exact List.mem_cons_of_mem _ (by rw [hheld1]; exact List.mem_cons_self _ _)
        · rw [hheld2]
          exact List.mem_cons_self _ _
        · intro e' _
          rfl
        · intro exe args hok
          cases hok
      | ok exe =>
        simp only [hr] at h
        cases h
        refine ⟨by rw [hheld2, hheld1], ?_, ?_, ?_, ?_⟩
        · rw [hheld2]
          exact List.mem_cons_of_mem _ (by rw [hheld1]; exact List.mem_cons_self _ _)
        · rw [hheld2]
          exact List.mem_cons_self _ _
        · intro e' he'
          cases he'
        · intro exe' args hok
          simp [List.countP_cons, Event.isAppClosed, runChildEvents_appClosed_count]

theorem ports_never_released_witness :
    (PortPool.mk [8316, 8315]).held = 8316 :: 8315 :: (PortPool.mk []).held ∧
    (8315 : Nat) ∈ (PortPool.mk [8316, 8315]).held ∧
    (8316 : Nat) ∈ (PortPool.mk [8316, 8315]).held := by
  have h := ports_never_released ⟨[]⟩ Platform.win32 fsEmpty app0 "inst"
    [ChildEvent.closed 0]
    { nodePort := 8315, windowPort := 8316, pool := ⟨[8316, 8315]⟩,
      spawned := Except.ok ("c:/apps/Foo.exe",
        ["--inspect=8315", "--remote-debugging-port=8316"]),
      events := [Event.appPrepare "inst" "app0", Event.appClosed "inst"] }
    (by rfl)
  exact ⟨h.1, h.2.1, h.2.2.1⟩

/-! ## Claim C6: the Windows `exePath` -/

/-- Formalisation of C6's wording (not of the source): the resolved path of
the first executable file within the installation's `app-` versioned
subdirectory whose name does not mark it as an uninstaller binary. -/
def claimedWinExePath (fs : FsEnv) (appPath : String) : Option String :=
  match fs.readdir appPath with
  | Except.error _ => none
  | Except.ok entries =>
    match entries.filter (fun n => strStartsWith n "app-") with
    | [] => none
    | dir :: _ =>
      match fs.readdir (pathJoin appPath dir) with
      | Except.error _ => none
      | Except.ok files =>
        (files.filter winExeFilter).head?.map (fun f => pathJoin (pathJoin appPath dir) f)

/-- A Squirrel-style Windows installation: the versioned `app-1.0`
subdirectory holds the real binary, the installation root holds the
updater stub `Update.exe`. -/
def fs6 : FsEnv :=
  { readdir := fun d =>
      if d = "c:/apps/Foo" then Except.ok ["app-1.0", "Update.exe", "Foo.exe"]
      else if d = "c:/apps/Foo/app-1.0" then Except.ok ["Foo.exe", "Uninstall Foo.exe"]
      else Except.error "ENOENT",
    pathExists := fun p => p == "c:/apps/Foo/app-1.0/resources/electron.asar",
    readFile := fun _ => Except.error "ENOENT",
    plistParse := fun _ => ⟨"", "", "", ""⟩,
    readIcns := fun _ => "" }

/-- **C6 counterexample.** On a Squirrel-style installation accepted by
discovery, `getAppInfo` publishes `exePath = "Update.exe"` — the bare file
name of the first top-level `.exe`, not a resolved path, and not a file of
the versioned subdirectory — while the claim's rule resolves
`c:/apps/Foo/app-1.0/Foo.exe`. -/
theorem winExePath_counterexample :
    isElectronApp Platform.win32 fs6 "c:/apps/Foo" = true ∧
    getAppInfo Platform.win32 fs6 "fresh-id" "c:/apps/Foo" =
      Except.ok { id := "fresh-id", name := "Foo", icon := "",
                  appPath := "c:/apps/Foo", exePath := some "Update.exe" } ∧
    claimedWinExePath fs6 "c:/apps/Foo" = some "c:/apps/Foo/app-1.0/Foo.exe" ∧
    (some "Update.exe" : Option String) ≠ some "c:/apps/Foo/app-1.0/Foo.exe" := by
  refine ⟨by rfl, by rfl, by rfl, by decide⟩

theorem filter_head?_eq_find? {α : Type} (p : α → Bool) (l : List α) :
    (l.filter p).head? = l.find? p :=
  List.filter_head? p l

/-- **C6 (amended).** For a win32 installation whose root listing succeeds,
the published `exePath` is the *first entry of the top-level listing itself*
(a bare file name, not a resolved path, and not taken from the versioned
subdirectory) that ends in `.exe` and does not start with `Uninstall`;
`none` (undefined) when no entry matches. -/
theorem winExePath_first_top_level_exe (fs : FsEnv) (fid appPath : String)
    (files : List String) (h : fs.readdir appPath = Except.ok files) :
    getAppInfo Platform.win32 fs fid appPath =
      Except.ok { id := fid, name := basenameStr appPath, icon := "",
                  appPath := appPath, exePath := files.find? winExeFilter } ∧
    (∀ x, files.find? winExeFilter = some x →
      x ∈ files ∧ strEndsWith x ".exe" = true ∧ strStartsWith x "Uninstall" = false) := by
  constructor
  · simp [getAppInfo, h, filter_head?_eq_find?]
  · intro x hx
    have hp : winExeFilter x = true := List.find?_some hx
    have hm : x ∈ files := List.mem_of_find?_eq_some hx
    unfold winExeFilter at hp
    have hsplit := Bool.and_eq_true_iff.mp hp
    refine ⟨hm, hsplit.1, ?_⟩
    have := hsplit.2
    simp only [Bool.not_eq_true'] at this
    exact this

theorem winExePath_first_top_level_exe_witness :
    getAppInfo Platform.win32 fs6 "fid" "c:/apps/Foo" =
      Except.ok { id := "fid", name := basenameStr "c:/apps/Foo", icon := "",
                  appPath := "c:/apps/Foo",
                  exePath := ["app-1.0", "Update.exe", "Foo.exe"].find? winExeFilter } :=
  (winExePath_first_top_level_exe fs6 "fid" "c:/apps/Foo"
    ["app-1.0", "Update.exe", "Foo.exe"] (by rfl)).1

/-! ## Claim C7: which executable a launch spawns -/

/-- The C7 claim as stated: when the launch argument does not already point
at a binary, the spawned executable is the one discovery's metadata
extraction resolved for that installation (`AppInfo.exePath`). -/
def launchUsesDiscoveryRuleClaim : Prop :=
  ∀ (pf : Platform) (fs : FsEnv) (fid appPath x : String) (info : AppInfo),
    extnameStr appPath ≠ ".exe" →
    getAppInfo pf fs fid appPath = Except.ok info →
    info.exePath = some x →
    resolveExecutable pf fs appPath = Except.ok x

/-- **C7 counterexample.** For the installation of `fs6`, discovery's rule
extracts `Update.exe` (first matching top-level `.exe`), but the launch path
spawns `getExecutable`'s result `c:/apps/Foo/Foo.exe` (directory name plus
`.exe`): the fallback is *not* the rule discovery uses. -/
theorem launch_executable_counterexample : ¬ launchUsesDiscoveryRuleClaim := by
  intro h
  have hc := h Platform.win32 fs6 "fid" "c:/apps/Foo" "Update.exe"
    { id := "fid", name := "Foo", icon := "", appPath := "c:/apps/Foo",
      exePath := some "Update.exe" } (by decide) (by rfl) rfl
  have h2 : resolveExecutable Platform.win32 fs6 "c:/apps/Foo" =
      Except.ok "c:/apps/Foo/Foo.exe" := by rfl
  rw [h2] at hc
  exact absurd (Except.ok.inj hc) (by decide)

/-- **C7 (amended).** The launch argument is used as-is exactly when its
extension is `.exe` (on any platform); otherwise the spawned executable is
`getExecutable`'s result, which on win32 is `appPath/basename(appPath).exe`
— a rule based on the directory name, distinct from the first-matching-file
rule discovery uses for `exePath`. -/
theorem launch_executable_resolution (pf : Platform) (fs : FsEnv) (p q : String)
    (h1 : extnameStr p ≠ ".exe") (h2 : extnameStr q = ".exe") :
    resolveExecutable Platform.win32 fs p =
      Except.ok (pathJoin p (basenameStr p ++ ".exe")) ∧
    resolveExecutable pf fs q = Except.ok q := by
  constructor
  · simp [resolveExecutable, h1, getExecutable]
  · simp [resolveExecutable, h2]

theorem launch_executable_resolution_witness :
    resolveExecutable Platform.win32 fs6 "c:/apps/Foo" =
      Except.ok (pathJoin "c:/apps/Foo" (basenameStr "c:/apps/Foo" ++ ".exe")) ∧
    resolveExecutable Platform.darwin fs6 "/Applications/Foo.app/Contents/MacOS/Foo.exe" =
      Except.ok "/Applications/Foo.app/Contents/MacOS/Foo.exe" :=
  launch_executable_resolution Platform.darwin fs6 "c:/apps/Foo"
    "/Applications/Foo.app/Contents/MacOS/Foo.exe" (by decide) (by decide)

/-! ## Claim C9: behaviour on unhandled platforms -/

/-- The C9 claim as stated: each of the four platform-specific operations,
invoked on an unhandled platform, surfaces an error to its caller rather
than silently returning an empty or negative result. -/
def unsupportedPlatformClaim : Prop :=
  ∀ (s : String) (fs : FsEnv) (home fid appPath : String),
    getPossibleAppPaths (Platform.other s) home fs ≠ [] ∧
    isElectronApp (Platform.other s) fs appPath ≠ false ∧
    (getAppInfo (Platform.other s) fs fid appPath).isOk = false ∧
    (getExecutable (Platform.other s) fs appPath).isOk = false

/-- **C9 counterexample.** On platform `linux`, candidate-root enumeration
silently returns the empty list (and the runtime-detection predicate
silently returns `false`) instead of surfacing an error. -/
theorem unsupportedPlatform_counterexample : ¬ unsupportedPlatformClaim := by
  intro h
  exact (h "linux" fsEmpty "/home/u" "fid" "/opt/app").1 rfl

/-- **C9 (amended).** On an unhandled platform, `getAppInfo` and
`getExecutable` do reject with the `platform not supported` error, but
`getPossibleAppPaths` silently returns the empty candidate list and
`isElectronApp` silently returns `false`. -/
theorem unsupportedPlatform_behaviour (s : String) (fs : FsEnv)
    (home fid appPath : String) :
    getAppInfo (Platform.other s) fs fid appPath =
      Except.error ("platform not supported: " ++ s) ∧
    getExecutable (Platform.other s) fs appPath =
      Except.error ("platform not supported: " ++ s) ∧
    getPossibleAppPaths (Platform.other s) home fs = [] ∧
    isElectronApp (Platform.other s) fs appPath = false :=
  ⟨rfl, rfl, rfl, rfl⟩

/-! ## Claim C10: the published application mapping -/

theorem buildDict_go (k : String) :
    ∀ (l : List AppInfo) (d : Dict),
      (l.foldl insertD d) k =
        match l.reverse.find? (fun a => a.id == k) with
        | some a => some a
        | none => d k
  | [], d => by simp [List.foldl]
  | b :: l, d => by
    rw [List.foldl_cons, buildDict_go k l (insertD d b), List.reverse_cons,
      List.find?_append]
    cases hf : l.reverse.find? (fun a => a.id == k) with
    | some a => simp [Option.or]
    | none =>
      by_cases hid : b.id = k
      · simp [Option.or, List.find?, hid, insertD]
      · have hb : (fun a => a.id == k) b = false := by
          simp [hid]
        simp [Option.or, List.find?, hb, insertD, hid]
        intro hk
        exact absurd hk.symm hid

/-- **C10.** When a discovery scan completes, the published mapping is keyed
by application id and, at every key, holds the *last* accepted candidate
whose id is that key (later accepted candidates overwrite earlier ones with
the same id; keys with no accepted candidate are absent). -/
theorem getApps_last_write_wins (pf : Platform) (fs : FsEnv) (home : String)
    (freshIds : String → String) (infos : List AppInfo) (d : Dict) (k : String)
    (hc : collectInfos pf fs freshIds (getPossibleAppPaths pf home fs) = Except.ok infos)
    (hd : getApps pf fs home freshIds = Except.ok d) :
    d k = infos.reverse.find? (fun a => a.id == k) ∧
    (d k = none ↔ ∀ a ∈ infos, (a.id == k) = false) := by
  unfold getApps at hd
  rw [hc] at hd
  have hdb : d = buildDict infos := (Except.ok.inj hd).symm
  subst hdb
  have hgo := buildDict_go k infos (fun _ => none)
  unfold buildDict
  constructor
  · rw [hgo]
    cases hf : infos.reverse.find? (fun a => a.id == k) <;> simp
  · rw [hgo]
    cases hf : infos.reverse.find? (fun a => a.id == k) with
    | none =>
      have hf' : ∀ a ∈ infos, (a.id == k) = false := by
        intro a ha
        have := List.find?_eq_none.mp hf a (List.mem_reverse.mpr ha)
        simpa using this
      constructor
      · intro _
        exact hf'
      · intro _
        rfl
    | some a =>
      have hmem : a ∈ infos := List.mem_reverse.mp (List.mem_of_find?_eq_some hf)
      have hpa : (a.id == k) = true := by simpa using List.find?_some hf
      constructor
      · intro hcontra
        cases hcontra
      · intro hall
        rw [hall a hmem] at hpa
        cases hpa

/-- A darwin environment in which `/Applications` holds two Electron apps
whose `Info.plist` files declare the same bundle identifier. -/
def fs10 : FsEnv :=
  { readdir := fun d =>
      if d = "/Applications" then Except.ok ["A.app", "B.app"] else Except.error "ENOENT",
    pathExists := fun _ => true,
    readFile := fun p => Except.ok p,
    plistParse := fun c =>
      { CFBundleIdentifier := "com.x", CFBundleDisplayName := c,
        CFBundleExecutable := "Run", CFBundleIconFile := "i.icns" },
    readIcns := fun _ => "data:icon" }

/-- The first accepted candidate of the `fs10` scan. -/
def infoA10 : AppInfo :=
  { id := "com.x", name := "/Applications/A.app/Contents/Info.plist", icon := "data:icon",
    appPath := "/Applications/A.app",
    exePath := some "/Applications/A.app/Contents/MacOS/Run" }

/-- The second accepted candidate of the `fs10` scan, sharing `infoA10`'s id. -/
def infoB10 : AppInfo :=
  { id := "com.x", name := "/Applications/B.app/Contents/Info.plist", icon := "data:icon",
    appPath := "/Applications/B.app",
    exePath := some "/Applications/B.app/Contents/MacOS/Run" }

theorem getApps_last_write_wins_witness :
    buildDict [infoA10, infoB10] "com.x" =
      [infoA10, infoB10].reverse.find? (fun a => a.id == "com.x") ∧
    [infoA10, infoB10].reverse.find? (fun a => a.id == "com.x") = some infoB10 := by
  have h := getApps_last_write_wins Platform.darwin fs10 "/home/u" (fun _ => "unused")
    [infoA10, infoB10] (buildDict [infoA10, infoB10]) "com.x" (by rfl) (by rfl)
  exact ⟨h.1, by rfl⟩
